import Mathlib

/-!
Verification of the open-jobs ingestion function
(`src/frontend/supabase/functions/fetch_open_jobs/index.ts`) of the
flowwrk repository.

The TypeScript function is shallowly embedded: JSON values reaching the
helper functions are modelled as optional strings (absent / `null` /
`undefined` collapse to `none`; JavaScript string truthiness, where only
the empty string is falsy, is modelled explicitly).  The external
effects — the SerpAPI HTTP fetch and the database upsert — are modelled
as an explicit environment passed to the run function, and
`Date.parse` / `toISOString` are parameters, since their behaviour is
host-defined.
-/

namespace FetchOpenJobs

/-- JavaScript truthiness on an optional string: `none`, and `some ""`,
are falsy; every other string is truthy. -/
def truthy (v : Option String) : Option String :=
  match v with
  | none => none
  | some s => if s = "" then none else some s

/-- A link object appearing in `apply_options` / `related_links`. -/
structure Link where
  link : Option String
deriving DecidableEq, Repr

/-- The `detected_extensions` sub-object of a SerpAPI result. -/
structure DetectedExtensions where
  posted_at_date : Option String
  posted_at : Option String
  posted : Option String
deriving DecidableEq, Repr

/-- One raw result from the external search API, restricted to the
fields the function reads. -/
structure Job where
  job_url : Option String
  apply_options : List Link
  related_links : List Link
  share_link : Option String
  google_jobs_link : Option String
  job_id : Option String
  detected_extensions : Option DetectedExtensions
  company_name : Option String
  company : Option String
  title : Option String
  location : Option String
deriving DecidableEq, Repr

/-- A job all of whose fields are absent. -/
def Job.empty : Job :=
  ⟨none, [], [], none, none, none, none, none, none, none, none⟩

/-- JavaScript's `String.prototype.trim()`, modelled on the character
list: strip leading and trailing whitespace. -/
def jsTrim (s : String) : String :=
  ⟨((s.data.dropWhile Char.isWhitespace).reverse.dropWhile Char.isWhitespace).reverse⟩

/-- `asString(v, fallback)`: `null`/`undefined` gives the fallback,
otherwise the trimmed string if non-empty, else the fallback. -/
def asString (v : Option String) (fallback : String) : String :=
  match v with
  | none => fallback
  | some s =>
    let t := jsTrim s
    if t.length ≠ 0 then t else fallback

/-- The ordered URL candidates of `pickJobUrl`, before the
`filter(Boolean)` step: `job_url`, the first `apply_options` link, the
first `related_links` link, `share_link`, `google_jobs_link`. -/
def urlCandidates (job : Job) : List (Option String) :=
  [ job.job_url
  , job.apply_options.head?.bind Link.link
  , job.related_links.head?.bind Link.link
  , job.share_link
  , job.google_jobs_link ]

/-- `pickJobUrl`: filter the candidates by truthiness and take the
first, or `null` when none survives. -/
def pickJobUrl (job : Job) : Option String :=
  ((urlCandidates job).filterMap truthy).head?

/-- The raw posted-date candidate: nullish coalescing over
`posted_at_date`, `posted_at`, `posted` of `detected_extensions`. -/
def rawPosted (job : Job) : Option String :=
  (job.detected_extensions.bind DetectedExtensions.posted_at_date).or
    ((job.detected_extensions.bind DetectedExtensions.posted_at).or
      (job.detected_extensions.bind DetectedExtensions.posted))

/-- `parseDatePosted`, parametric in the host's `Date.parse`
(`dateParse`, `none` for `NaN`) and `new Date(ms).toISOString()`
(`toISO`).  A falsy raw value gives `null`; a failed parse gives
`null`; otherwise the ISO rendering of the parsed milliseconds. -/
def parseDatePosted (dateParse : String → Option Int) (toISO : Int → String)
    (job : Job) : Option String :=
  match rawPosted job with
  | none => none
  | some raw =>
    if raw = "" then none
    else
      match dateParse raw with
      | none => none
      | some ms => some (toISO ms)

/-- `buildSourceJobId`: prefer a truthy `job_id` whose trim is
non-empty; otherwise fall back to the resolved posting URL. -/
def buildSourceJobId (job : Job) (jobUrl : String) : String :=
  match truthy job.job_id with
  | some jid => if (jsTrim jid).length ≠ 0 then jid else jobUrl
  | none => jobUrl

/-- The hard-coded source identifier. -/
def sourceName : String := "serpapi_google_jobs"

/-- One row of the `open_jobs` table as the function writes it. -/
structure Row where
  source : String
  source_job_id : String
  serpapi_job_id : Option String
  company : String
  role : String
  location : String
  job_url : String
  date_posted : Option String
deriving DecidableEq, Repr

/-- The normalized row built for one result (lines 260–269 of the
source): `source`, the stable identifier, the raw truthy `job_id`, the
defaulted company / role / location, the resolved URL, and the
parsed-or-null posted date. -/
def buildRow (dateParse : String → Option Int) (toISO : Int → String)
    (location : String) (job : Job) (jobUrl : String) : Row :=
  { source := sourceName
  , source_job_id := buildSourceJobId job jobUrl
  , serpapi_job_id := truthy job.job_id
  , company := asString (job.company_name.or job.company) "Unknown"
  , role := asString job.title "Unknown"
  , location := asString ((job.location).or (some location)) location
  , job_url := jobUrl
  , date_posted := parseDatePosted dateParse toISO job }

/-- Outcome of one external search request, as the code distinguishes
them: a thrown transport error, a non-2xx response, or a parsed body
whose `jobs_results` is an array (`some`) or anything else (`none`). -/
inductive FetchResult where
  | transportError (msg : String)
  | httpNotOk (status : Nat)
  | ok (jobsResults : Option (List Job))
deriving DecidableEq, Repr

/-- The external world of one run: what the search API answers for each
(query, location) pair, and whether the store rejects a given row
(`some message`) or accepts it (`none`). -/
structure Env where
  fetch : String → String → FetchResult
  upsert : Row → Option String


/-- One entry of `per_query_counts`. -/
structure PerQuery where
  query : String
  location : String
  fetched : Nat
  attempted : Nat
  upserted : Nat
  skipped_no_url : Nat
  serpapi_http : Option Nat
  error : Option String
deriving DecidableEq, Repr

/-- One entry of `upsert_errors` (role and company are always filled by
the push at lines 279–285). -/
structure UpsertError where
  query : String
  location : String
  role : String
  company : String
  reason : String
deriving DecidableEq, Repr

/-- One entry of `serpapi_errors`. -/
structure SerpapiError where
  query : String
  location : String
  reason : String
deriving DecidableEq, Repr

/-- The fresh per-pair record (lines 200–207). -/
def PerQuery.init (query location : String) : PerQuery :=
  ⟨query, location, 0, 0, 0, 0, none, none⟩

/-- Result of the inner per-job loop over one pair's slice: the three
counters, the errors pushed to `upsert_errors`, and the rows the store
accepted, in order. -/
structure JobsAcc where
  attempted : Nat
  upserted : Nat
  skipped_no_url : Nat
  upsertErrors : List UpsertError
  writes : List Row
deriving DecidableEq, Repr

/-- The inner loop (lines 247–291): each job of the slice either lacks
a URL and is skipped, or is normalized and handed to the store, which
accepts it or yields an error record. -/
def processJobs (env : Env) (dateParse : String → Option Int)
    (toISO : Int → String) (query location : String) :
    List Job → JobsAcc
  | [] => ⟨0, 0, 0, [], []⟩
  | job :: rest =>
    let r := processJobs env dateParse toISO query location rest
    match pickJobUrl job with
    | none =>
      { r with skipped_no_url := r.skipped_no_url + 1 }
    | some jobUrl =>
      let row := buildRow dateParse toISO location job jobUrl
      match env.upsert row with
      | some msg =>
        { r with
            attempted := r.attempted + 1
            upsertErrors := ⟨query, location, row.role, row.company, msg⟩ :: r.upsertErrors }
      | none =>
        { r with
            attempted := r.attempted + 1
            upserted := r.upserted + 1
            writes := row :: r.writes }

/-- What one iteration of the pair loop contributes to the summary. -/
structure PairOutcome where
  per : PerQuery
  serpErr : Option SerpapiError
  upsertErrors : List UpsertError
  writes : List Row
deriving DecidableEq, Repr

/-- One iteration of the pair loop (lines 196–294): fetch, on failure
record and continue, otherwise slice to the cap and run the inner
loop. -/
def processPair (env : Env) (dateParse : String → Option Int)
    (toISO : Int → String) (maxResults : Nat)
    (query location : String) : PairOutcome :=
  let per := PerQuery.init query location
  match env.fetch query location with
  | .httpNotOk status =>
    { per := { per with serpapi_http := some status }
    , serpErr := some ⟨query, location, "SerpAPI HTTP " ++ toString status⟩
    , upsertErrors := []
    , writes := [] }
  | .transportError msg =>
    { per := { per with error := some msg }
    , serpErr := some ⟨query, location, msg⟩
    , upsertErrors := []
    , writes := [] }
  | .ok jobsResults =>
    let jobs := jobsResults.getD []
    let slice := jobs.take maxResults
    let r := processJobs env dateParse toISO query location slice
    { per := { per with
        fetched := jobs.length
        attempted := r.attempted
        upserted := r.upserted
        skipped_no_url := r.skipped_no_url }
    , serpErr := none
    , upsertErrors := r.upsertErrors
    , writes := r.writes }

/-- The accumulated run state over the remaining pairs. -/
structure RunAcc where
  searched_requests : Nat
  fetched_jobs_total : Nat
  upsert_success : Nat
  skipped_no_url : Nat
  per_query_counts : List PerQuery
  upsert_errors : List UpsertError
  serpapi_errors : List SerpapiError
  writes : List Row
deriving DecidableEq, Repr

/-- The outer loop over the (title × location) pairs, head first, each
iteration contributing its outcome in order. -/
def runPairs (env : Env) (dateParse : String → Option Int)
    (toISO : Int → String) (maxResults : Nat) :
    List (String × String) → RunAcc
  | [] => ⟨0, 0, 0, 0, [], [], [], []⟩
  | (query, location) :: rest =>
    let p := processPair env dateParse toISO maxResults query location
    let r := runPairs env dateParse toISO maxResults rest
    { searched_requests := r.searched_requests + 1
    , fetched_jobs_total := p.per.fetched + r.fetched_jobs_total
    , upsert_success := p.per.upserted + r.upsert_success
    , skipped_no_url := p.per.skipped_no_url + r.skipped_no_url
    , per_query_counts := p.per :: r.per_query_counts
    , upsert_errors := p.upsertErrors ++ r.upsert_errors
    , serpapi_errors := p.serpErr.toList ++ r.serpapi_errors
    , writes := p.writes ++ r.writes }

/-- The cartesian product iterated by the nested `for` loops: every
title with every location, titles outermost. -/
def pairsOf (titles locations : List String) : List (String × String) :=
  titles.flatMap (fun q => locations.map (fun l => (q, l)))

/-- The optional JSON body of the request (the `Input` type of the
source). -/
structure Input where
  job_titles : Option (List String)
  location : Option String
  max_results_per_title : Option Int
  locations : Option (List String)
deriving Repr

/-- A request body with every field absent. -/
def Input.empty : Input := ⟨none, none, none, none⟩

/-- The hard-coded default title list. -/
def DEFAULT_TITLES : List String :=
  [ "Frontend Engineer", "Backend Engineer", "Full Stack Developer"
  , "Software Engineer", "Client Administrator" ]

/-- The hard-coded default metro list. -/
def DEFAULT_LOCATIONS : List String :=
  [ "Seattle, WA, United States", "Bellevue, WA, United States"
  , "Redmond, WA, United States", "Kirkland, WA, United States"
  , "Everett,WA, United States" ]

/-- `jobTitles` (lines 130–133): the body's list when it is a non-empty
array, else the defaults. -/
def effectiveTitles (input : Input) : List String :=
  match input.job_titles with
  | some ts => if ts.length ≠ 0 then ts else DEFAULT_TITLES
  | none => DEFAULT_TITLES

/-- `locations` (lines 139–146): a non-empty `body.locations` is
normalized by `asString` and filtered for truthiness; failing that, a
truthy `body.location` whose `asString` is truthy becomes a singleton;
failing that, the defaults. -/
def effectiveLocations (input : Input) : List String :=
  match input.locations with
  | some ls =>
    if ls.length ≠ 0 then
      (ls.map (fun x => asString (some x) "")).filter (fun s => s ≠ "")
    else singleOrDefault input
  | none => singleOrDefault input
where
  /-- The `body.location` single-override branch and the default. -/
  singleOrDefault (input : Input) : List String :=
    match truthy input.location with
    | some s =>
      if asString (some s) "" ≠ "" then [asString (some s) ""]
      else DEFAULT_LOCATIONS
    | none => DEFAULT_LOCATIONS

/-- `maxResults` (lines 148–151): the requested bound, defaulting to
25, clamped into `[1, 100]`. -/
def effectiveMaxResults (input : Input) : Int :=
  min (max (input.max_results_per_title.getD 25) 1) 100

/-- The three required environment secrets. -/
structure Secrets where
  supabase_url : Option String
  service_role : Option String
  serpapi_key : Option String
deriving Repr

/-- A full set of (non-empty) secrets. -/
def Secrets.present : Secrets :=
  ⟨some "https://example.supabase.co", some "service-role-key", some "serpapi-key"⟩

/-- The guard at line 88: any falsy secret aborts the run. -/
def Secrets.missing (s : Secrets) : Bool :=
  (truthy s.supabase_url).isNone || (truthy s.service_role).isNone ||
    (truthy s.serpapi_key).isNone

/-- The success summary assembled by the run (the `ms` wall-clock field
is omitted: real time is outside the model). -/
structure Summary where
  ok : Bool
  source : String
  requested_titles : List String
  requested_locations : List String
  max_results_per_title : Int
  searched_requests : Nat
  fetched_jobs_total : Nat
  upsert_success : Nat
  skipped_no_url : Nat
  per_query_counts : List PerQuery
  upsert_errors : List UpsertError
  serpapi_errors : List SerpapiError
deriving Repr

/-- The response of one invocation: an HTTP status with either an
`ok:false` error body or the success summary. -/
inductive ServeResult where
  | failure (status : Nat) (error : String)
  | success (status : Nat) (summary : Summary)
deriving Repr

/-- One invocation of the function: the secrets guard, input
resolution, the pair loop over the cartesian product, and the 200
response with the summary. -/
def serve (secrets : Secrets) (env : Env) (dateParse : String → Option Int)
    (toISO : Int → String) (input : Input) : ServeResult :=
  if secrets.missing then
    .failure 500
      "Missing env vars. Need SUPABASE_URL, SUPABASE_SERVICE_ROLE_KEY, SERPAPI_KEY"
  else
    let titles := effectiveTitles input
    let locations := effectiveLocations input
    let maxResults := effectiveMaxResults input
    let r := runPairs env dateParse toISO maxResults.toNat
      (pairsOf titles locations)
    .success 200
      { ok := true
      , source := sourceName
      , requested_titles := titles
      , requested_locations := locations
      , max_results_per_title := maxResults
      , searched_requests := r.searched_requests
      , fetched_jobs_total := r.fetched_jobs_total
      , upsert_success := r.upsert_success
      , skipped_no_url := r.skipped_no_url
      , per_query_counts := r.per_query_counts
      , upsert_errors := r.upsert_errors
      , serpapi_errors := r.serpapi_errors }

/-- The dedupe key of a row. -/
def Row.key (r : Row) : String × String := (r.source, r.source_job_id)

/-- Modelled from the spec: the database-side upsert semantics behind
`supabase.from("open_jobs").upsert(row, { onConflict: "source,source_job_id" })`.
The hosted database and its unique index on `(source, source_job_id)`
are not part of this repository's sources; per the spec, an upsert
keyed on that pair overwrites the existing row with the same key or
inserts a new one. -/
def upsertRow (table : List Row) (row : Row) : List Row :=
  if table.any (fun r => r.key = row.key) then
    table.map (fun r => if r.key = row.key then row else r)
  else table ++ [row]

/-- Key-uniqueness of a stored table: no two distinct positions hold
the same `(source, source_job_id)` key. -/
def keysUnique (table : List Row) : Prop :=
  (table.map Row.key).Nodup

/-- The spec's wording of URL resolution: the first non-empty entry of
the ordered candidate list wins; absent entries and empty strings are
passed over. -/
def firstNonEmpty : List (Option String) → Option String
  | [] => none
  | none :: rest => firstNonEmpty rest
  | some s :: rest => if s = "" then firstNonEmpty rest else some s

/-- Test environment: every fetch returns a body without
`jobs_results`, every upsert is accepted. -/
def envAccept : Env := ⟨fun _ _ => .ok none, fun _ => none⟩

/-- Test environment: every upsert is rejected with a fixed message. -/
def envReject : Env := ⟨fun _ _ => .ok none, fun _ => some "duplicate key"⟩

/-- A result with only a posting URL. -/
def jobU : Job := { Job.empty with job_url := some "https://jobs.example/1" }

/-- Test environment: the pair ("A", "L") fails in transport, every
other pair returns one plain result; all upserts accepted. -/
def envFail : Env :=
  ⟨fun q l => if (q, l) = ("A", "L") then .transportError "boom"
              else .ok (some [jobU]), fun _ => none⟩

/-- Test environment: every pair returns one plain result; all upserts
accepted. -/
def envOkAll : Env := ⟨fun _ _ => .ok (some [jobU]), fun _ => none⟩

/-- A test stand-in for `Date.parse`: exactly one recognized date. -/
def dp0 : String → Option Int :=
  fun s => if s = "2024-01-02" then some 1704153600000 else none

/-- A test stand-in for `toISOString`. -/
def iso0 : Int → String := fun ms => "iso:" ++ toString ms

/-- A secrets record with every variable unset. -/
def secretsNone : Secrets := ⟨none, none, none⟩

/-- A concrete stored row. -/
def rowA : Row :=
  ⟨"serpapi_google_jobs", "id1", some "id1", "ACME", "Dev", "Seattle", "https://u/1", none⟩

/-- A row with the same `(source, source_job_id)` key as `rowA` but
different field values. -/
def rowB : Row :=
  ⟨"serpapi_google_jobs", "id1", some "id1", "ACME Corp", "Dev II", "Bellevue",
    "https://u/2", some "2024-01-02T00:00:00.000Z"⟩

end FetchOpenJobs

namespace FetchOpenJobs

theorem string_length_eq_zero {s : String} : s.length = 0 ↔ s = "" := by
  constructor
  · intro h
    apply String.ext
    have hd : s.data = [] := List.length_eq_zero.mp h
    rw [hd]
  · intro h; subst h; rfl

theorem filterMap_truthy_head (cs : List (Option String)) :
    (cs.filterMap truthy).head? = firstNonEmpty cs := by
  induction cs with
  | nil => rfl
  | cons c rest ih =>
    match c with
    | none => simpa [truthy, firstNonEmpty] using ih
    | some s =>
      by_cases hs : s = "" <;>
        simp [truthy, firstNonEmpty, hs, ih]

/-- C3: the posting URL is the first non-empty entry of the ordered
candidate fields; a result with no usable URL is never written — the
inner loop only bumps the skipped-no-URL counter for it. -/
theorem pickJobUrl_first_nonEmpty (job : Job) :
    pickJobUrl job = firstNonEmpty (urlCandidates job) ∧
    (pickJobUrl job = none →
      ∀ env dateParse toISO q l js,
        processJobs env dateParse toISO q l (job :: js) =
          { processJobs env dateParse toISO q l js with
              skipped_no_url :=
                (processJobs env dateParse toISO q l js).skipped_no_url + 1 }) := by
  refine ⟨filterMap_truthy_head (urlCandidates job), fun h env dateParse toISO q l js => ?_⟩
  simp [processJobs, h]

/-- Witness for C3 at a result with every candidate field absent. -/
theorem pickJobUrl_first_nonEmpty_witness :
    pickJobUrl Job.empty = firstNonEmpty (urlCandidates Job.empty) ∧
    processJobs envAccept dp0 iso0 "q" "l" [Job.empty] =
      { processJobs envAccept dp0 iso0 "q" "l" [] with
          skipped_no_url := (processJobs envAccept dp0 iso0 "q" "l" []).skipped_no_url + 1 } :=
  ⟨(pickJobUrl_first_nonEmpty Job.empty).1,
   (pickJobUrl_first_nonEmpty Job.empty).2 rfl envAccept dp0 iso0 "q" "l" []⟩

/-- C4: assuming the host's parser rejects the empty string (as
`Date.parse("")` does), the stored posted date is the ISO rendering of
the parsed raw candidate — `null` exactly when the candidate is absent
or fails to parse — and a result with a usable URL is always attempted,
never skipped, whatever its date fields hold. -/
theorem parseDatePosted_null_iff (dateParse : String → Option Int)
    (toISO : Int → String) (hdp : dateParse "" = none) (job : Job) :
    parseDatePosted dateParse toISO job = ((rawPosted job).bind dateParse).map toISO ∧
    (∀ env q l js url, pickJobUrl job = some url →
      (processJobs env dateParse toISO q l (job :: js)).skipped_no_url =
        (processJobs env dateParse toISO q l js).skipped_no_url ∧
      (processJobs env dateParse toISO q l (job :: js)).attempted =
        (processJobs env dateParse toISO q l js).attempted + 1) := by
  constructor
  · rcases hraw : rawPosted job with _ | raw
    · simp [parseDatePosted, hraw]
    · by_cases h0 : raw = ""
      · subst h0; simp [parseDatePosted, hraw, hdp]
      · rcases hpr : dateParse raw with _ | ms <;>
          simp [parseDatePosted, hraw, h0, hpr]
  · intro env q l js url hurl
    cases hup : env.upsert (buildRow dateParse toISO l job url) <;>
      simp [processJobs, hurl, hup]

/-- Witness for C4: a parseable date is stored as its ISO rendering and
the row is attempted; the hypothesis on the empty string holds for the
test parser. -/
theorem parseDatePosted_null_iff_witness :
    dp0 "" = none ∧
    (parseDatePosted dp0 iso0
        { jobU with detected_extensions := some ⟨some "2024-01-02", none, none⟩ } =
      ((rawPosted { jobU with detected_extensions := some ⟨some "2024-01-02", none, none⟩ }).bind dp0).map iso0 ∧
    (∀ env q l js url,
      pickJobUrl { jobU with detected_extensions := some ⟨some "2024-01-02", none, none⟩ } = some url →
      (processJobs env dp0 iso0 q l
          ({ jobU with detected_extensions := some ⟨some "2024-01-02", none, none⟩ } :: js)).skipped_no_url =
        (processJobs env dp0 iso0 q l js).skipped_no_url ∧
      (processJobs env dp0 iso0 q l
          ({ jobU with detected_extensions := some ⟨some "2024-01-02", none, none⟩ } :: js)).attempted =
        (processJobs env dp0 iso0 q l js).attempted + 1)) :=
  ⟨by decide,
   parseDatePosted_null_iff dp0 iso0 (by decide)
     { jobU with detected_extensions := some ⟨some "2024-01-02", none, none⟩ }⟩

/-- C5: the stored `source_job_id` is the posting URL when the native
id is absent, empty or whitespace-only, and the native id itself when
it is non-blank. -/
theorem sourceJobId_fallback (dateParse : String → Option Int)
    (toISO : Int → String) (loc : String) (job : Job) (url : String) :
    ((job.job_id = none ∨ ∃ s, job.job_id = some s ∧ jsTrim s = "") →
      (buildRow dateParse toISO loc job url).source_job_id = url) ∧
    (∀ s, job.job_id = some s → jsTrim s ≠ "" →
      (buildRow dateParse toISO loc job url).source_job_id = s) := by
  constructor
  · rintro (h | ⟨s, hs, htrim⟩)
    · simp [buildRow, buildSourceJobId, truthy, h]
    · by_cases h0 : s = ""
      · subst h0; simp [buildRow, buildSourceJobId, truthy, hs]
      · simp [buildRow, buildSourceJobId, truthy, hs, h0, htrim]
  · intro s hs htrim
    have h0 : s ≠ "" := by
      intro h; apply htrim; subst h; rfl
    have hlen : (jsTrim s).length ≠ 0 := by
      intro h; exact htrim (string_length_eq_zero.mp h)
    simp [buildRow, buildSourceJobId, truthy, hs, h0, hlen]

/-- Witness for C5: a whitespace-only native id falls back to the URL;
a non-blank one is kept. -/
theorem sourceJobId_fallback_witness :
    (buildRow dp0 iso0 "L" { jobU with job_id := some "   " } "https://u").source_job_id =
      "https://u" ∧
    (buildRow dp0 iso0 "L" { jobU with job_id := some "abc123" } "https://u").source_job_id =
      "abc123" :=
  ⟨(sourceJobId_fallback dp0 iso0 "L" { jobU with job_id := some "   " } "https://u").1
      (Or.inr ⟨"   ", rfl, by decide⟩),
   (sourceJobId_fallback dp0 iso0 "L" { jobU with job_id := some "abc123" } "https://u").2
      "abc123" rfl (by decide)⟩

end FetchOpenJobs

namespace FetchOpenJobs

/-- C6: a rejected upsert is recorded in the upsert-error list with the
row's company and role and the pair's query and location, and the rest
of the pair's rows are processed exactly as without this row — its
failure changes no other counter and suppresses no later write. -/
theorem upsert_failure_recorded
    (env : Env) (dateParse : String → Option Int) (toISO : Int → String)
    (q l : String) (job : Job) (js : List Job) (url msg : String)
    (hurl : pickJobUrl job = some url)
    (hrej : env.upsert (buildRow dateParse toISO l job url) = some msg) :
    processJobs env dateParse toISO q l (job :: js) =
      { attempted := (processJobs env dateParse toISO q l js).attempted + 1
      , upserted := (processJobs env dateParse toISO q l js).upserted
      , skipped_no_url := (processJobs env dateParse toISO q l js).skipped_no_url
      , upsertErrors :=
          ⟨q, l, (buildRow dateParse toISO l job url).role,
            (buildRow dateParse toISO l job url).company, msg⟩ ::
            (processJobs env dateParse toISO q l js).upsertErrors
      , writes := (processJobs env dateParse toISO q l js).writes } := by
  simp [processJobs, hurl, hrej]

/-- Witness for C6: a store rejecting every row records the error and
leaves the remaining (empty) processing untouched. -/
theorem upsert_failure_recorded_witness :
    processJobs envReject dp0 iso0 "q" "l" [jobU] =
      { attempted := (processJobs envReject dp0 iso0 "q" "l" []).attempted + 1
      , upserted := (processJobs envReject dp0 iso0 "q" "l" []).upserted
      , skipped_no_url := (processJobs envReject dp0 iso0 "q" "l" []).skipped_no_url
      , upsertErrors :=
          ⟨"q", "l", (buildRow dp0 iso0 "l" jobU "https://jobs.example/1").role,
            (buildRow dp0 iso0 "l" jobU "https://jobs.example/1").company, "duplicate key"⟩ ::
            (processJobs envReject dp0 iso0 "q" "l" []).upsertErrors
      , writes := (processJobs envReject dp0 iso0 "q" "l" []).writes } :=
  upsert_failure_recorded envReject dp0 iso0 "q" "l" jobU []
    "https://jobs.example/1" "duplicate key" (by decide) (by decide)

/-- C7: with any required secret missing the run fails with HTTP 500
and `ok:false` without consulting the external world at all; with all
secrets present the result is always a 200 success summary, whatever
the external world answers. -/
theorem serve_secrets_guard (secrets : Secrets) (env : Env)
    (dateParse : String → Option Int) (toISO : Int → String) (input : Input) :
    (secrets.missing = true →
      (∀ env', serve secrets env dateParse toISO input =
          serve secrets env' dateParse toISO input) ∧
      serve secrets env dateParse toISO input =
        .failure 500
          "Missing env vars. Need SUPABASE_URL, SUPABASE_SERVICE_ROLE_KEY, SERPAPI_KEY") ∧
    (secrets.missing = false →
      ∃ s, serve secrets env dateParse toISO input = .success 200 s ∧ s.ok = true) := by
  constructor
  · intro h
    exact ⟨fun env' => by simp [serve, h], by simp [serve, h]⟩
  · intro h
    unfold serve
    rw [if_neg (by simp [h])]
    exact ⟨_, rfl, rfl⟩

/-- Witness for C7: missing secrets give the 500 failure, present ones
a 200 success. -/
theorem serve_secrets_guard_witness :
    serve secretsNone envAccept dp0 iso0 Input.empty =
      .failure 500
        "Missing env vars. Need SUPABASE_URL, SUPABASE_SERVICE_ROLE_KEY, SERPAPI_KEY" ∧
    ∃ s, serve Secrets.present envAccept dp0 iso0 Input.empty = .success 200 s ∧
      s.ok = true :=
  ⟨((serve_secrets_guard secretsNone envAccept dp0 iso0 Input.empty).1 (by decide)).2,
   (serve_secrets_guard Secrets.present envAccept dp0 iso0 Input.empty).2 (by decide)⟩

theorem processJobs_attempted_le (env : Env) (dateParse : String → Option Int)
    (toISO : Int → String) (q l : String) (js : List Job) :
    (processJobs env dateParse toISO q l js).attempted ≤ js.length := by
  induction js with
  | nil => simp [processJobs]
  | cons job rest ih =>
    rcases h : pickJobUrl job with _ | url
    · simpa [processJobs, h] using Nat.le_succ_of_le ih
    · rcases h2 : env.upsert (buildRow dateParse toISO l job url) with _ | msg <;>
        simpa [processJobs, h, h2] using Nat.succ_le_succ ih

/-- C8: the effective cap is the requested bound clamped to [1,100],
25 when absent, and no pair attempts more than the cap many rows. -/
theorem maxResults_clamped (input : Input) (env : Env)
    (dateParse : String → Option Int) (toISO : Int → String) :
    1 ≤ effectiveMaxResults input ∧ effectiveMaxResults input ≤ 100 ∧
    (input.max_results_per_title = none → effectiveMaxResults input = 25) ∧
    (∀ m, input.max_results_per_title = some m →
      effectiveMaxResults input = min (max m 1) 100) ∧
    (∀ q l,
      (processPair env dateParse toISO (effectiveMaxResults input).toNat q l).per.attempted ≤
        (effectiveMaxResults input).toNat) := by
  refine ⟨?_, ?_, ?_, ?_, ?_⟩
  · exact le_min (le_max_right _ 1) (by norm_num)
  · exact min_le_right _ _
  · intro h; simp [effectiveMaxResults, h]
  · intro m h; simp [effectiveMaxResults, h]
  · intro q l
    rcases hf : env.fetch q l with msg | st | jobsOpt
    · simp [processPair, hf, PerQuery.init]
    · simp [processPair, hf, PerQuery.init]
    · simp only [processPair, hf]
      calc (processJobs env dateParse toISO q l
              ((jobsOpt.getD []).take (effectiveMaxResults input).toNat)).attempted
          ≤ ((jobsOpt.getD []).take (effectiveMaxResults input).toNat).length :=
            processJobs_attempted_le _ _ _ _ _ _
        _ ≤ (effectiveMaxResults input).toNat := by
            simp [List.length_take]

/-- Witness for C8: with an empty body the cap is 25 and a concrete
pair attempts at most 25 rows. -/
theorem maxResults_clamped_witness :
    effectiveMaxResults Input.empty = 25 ∧
    (processPair envOkAll dp0 iso0 (effectiveMaxResults Input.empty).toNat "q" "l").per.attempted ≤
      (effectiveMaxResults Input.empty).toNat :=
  ⟨(maxResults_clamped Input.empty envOkAll dp0 iso0).2.2.1 rfl,
   (maxResults_clamped Input.empty envOkAll dp0 iso0).2.2.2.2 "q" "l"⟩

end FetchOpenJobs

namespace FetchOpenJobs

theorem key_replace (row r : Row) :
    (if r.key = row.key then row else r).key = r.key := by
  split
  · next h => rw [← h]
  · rfl

theorem upsertRow_map_key (t : List Row) (row : Row)
    (h : (t.any fun r => r.key = row.key) = true) :
    (upsertRow t row).map Row.key = t.map Row.key := by
  simp only [upsertRow, h, if_true]
  rw [List.map_map]
  apply List.map_congr_left
  intro r _
  exact key_replace row r

theorem upsertRow_keysUnique (t : List Row) (row : Row) (hu : keysUnique t) :
    keysUnique (upsertRow t row) := by
  by_cases h : (t.any fun r => r.key = row.key) = true
  · unfold keysUnique
    rw [upsertRow_map_key t row h]
    exact hu
  · have hnot : ∀ r ∈ t, r.key ≠ row.key := by
      intro r hr heq
      exact h (List.any_eq_true.mpr ⟨r, hr, by simp [heq]⟩)
    unfold keysUnique upsertRow
    rw [if_neg h, List.map_append]
    refine List.Nodup.append hu (List.nodup_singleton _) ?_
    intro k hk1 hk2
    simp only [List.map_cons, List.map_nil, List.mem_singleton] at hk2
    subst hk2
    rcases List.mem_map.mp hk1 with ⟨r, hr, hkey⟩
    exact hnot r hr hkey

theorem map_key_id_of_no_match (t : List Row) (row : Row)
    (hall : ∀ r ∈ t, r.key ≠ row.key) :
    t.map (fun r => if r.key = row.key then row else r) = t := by
  conv_rhs => rw [← List.map_id t]
  apply List.map_congr_left
  intro r hr
  simp [hall r hr]

theorem filter_key_nil_of_no_match (t : List Row) (row : Row)
    (hall : ∀ r ∈ t, r.key ≠ row.key) :
    t.filter (fun r => r.key = row.key) = [] := by
  induction t with
  | nil => rfl
  | cons a t ih =>
    have ha := hall a (List.mem_cons_self a t)
    rw [List.filter_cons, decide_eq_false ha]
    simp only [Bool.false_eq_true, if_false]
    exact ih (fun r hr => hall r (List.mem_cons_of_mem a hr))

theorem filter_map_single (t : List Row) (row : Row) (hu : keysUnique t)
    (h : (t.any fun r => r.key = row.key) = true) :
    (t.map (fun r => if r.key = row.key then row else r)).filter
      (fun r => r.key = row.key) = [row] := by
  induction t with
  | nil => simp at h
  | cons a t ih =>
    have hu' : keysUnique t := by
      unfold keysUnique at hu ⊢
      exact (List.nodup_cons.mp (by simpa using hu)).2
    have hka : a.key ∉ t.map Row.key := by
      unfold keysUnique at hu
      exact (List.nodup_cons.mp (by simpa using hu)).1
    by_cases hak : a.key = row.key
    · have hallt : ∀ r ∈ t, r.key ≠ row.key := by
        intro r hr heq
        exact hka (by rw [hak, ← heq]; exact List.mem_map_of_mem Row.key hr)
      rw [List.map_cons, if_pos hak, map_key_id_of_no_match t row hallt]
      simp [List.filter_cons, filter_key_nil_of_no_match t row hallt]
    · have h' : (t.any fun r => r.key = row.key) = true := by
        rcases List.any_eq_true.mp h with ⟨r, hr, hrk⟩
        rcases List.mem_cons.mp hr with rfl | hrt
        · exact absurd (of_decide_eq_true hrk) hak
        · exact List.any_eq_true.mpr ⟨r, hrt, hrk⟩
      rw [List.map_cons, if_neg hak, List.filter_cons, decide_eq_false hak]
      simp only [Bool.false_eq_true, if_false]
      exact ih hu' h'

theorem upsertRow_filter (t : List Row) (row : Row) (hu : keysUnique t) :
    (upsertRow t row).filter (fun r => r.key = row.key) = [row] := by
  by_cases h : (t.any fun r => r.key = row.key) = true
  · simp only [upsertRow, h, if_true]
    exact filter_map_single t row hu h
  · have hnot : ∀ r ∈ t, r.key ≠ row.key := by
      intro r hr heq
      exact h (List.any_eq_true.mpr ⟨r, hr, by simp [heq]⟩)
    unfold upsertRow
    rw [if_neg h, List.filter_append, filter_key_nil_of_no_match t row hnot]
    simp

/-- C1: upserting a second row with the same `(source, source_job_id)`
key leaves exactly one stored row for that key, holding the latest
values, and every upsert preserves key-uniqueness of the table. -/
theorem upsert_key_unique (t : List Row) (r1 r2 : Row)
    (hu : keysUnique t) (_hk : r1.key = r2.key) :
    (upsertRow (upsertRow t r1) r2).filter (fun r => r.key = r2.key) = [r2] ∧
    keysUnique (upsertRow (upsertRow t r1) r2) ∧
    (∀ row, keysUnique (upsertRow t row)) := by
  have h1 : keysUnique (upsertRow t r1) := upsertRow_keysUnique t r1 hu
  exact ⟨upsertRow_filter _ r2 h1, upsertRow_keysUnique _ r2 h1,
    fun row => upsertRow_keysUnique t row hu⟩

/-- Witness for C1: re-ingesting the key "id1" with changed values
leaves exactly one row, the latest one. -/
theorem upsert_key_unique_witness :
    (upsertRow (upsertRow [] rowA) rowB).filter (fun r => r.key = rowB.key) = [rowB] ∧
    keysUnique (upsertRow (upsertRow [] rowA) rowB) :=
  ⟨(upsert_key_unique [] rowA rowB List.nodup_nil rfl).1,
   (upsert_key_unique [] rowA rowB List.nodup_nil rfl).2.1⟩

end FetchOpenJobs

namespace FetchOpenJobs

theorem processJobs_congr_upsert (env env' : Env)
    (dateParse : String → Option Int) (toISO : Int → String)
    (q l : String) (hup : env.upsert = env'.upsert) (js : List Job) :
    processJobs env dateParse toISO q l js =
      processJobs env' dateParse toISO q l js := by
  induction js with
  | nil => rfl
  | cons job rest ih => simp [processJobs, hup, ih]

theorem processPair_congr (env env' : Env)
    (dateParse : String → Option Int) (toISO : Int → String)
    (maxResults : Nat) (q l : String)
    (hup : env.upsert = env'.upsert) (hf : env.fetch q l = env'.fetch q l) :
    processPair env dateParse toISO maxResults q l =
      processPair env' dateParse toISO maxResults q l := by
  unfold processPair
  rw [hf]
  rcases env'.fetch q l with msg | st | jobsOpt
  · rfl
  · rfl
  · simp [processJobs_congr_upsert env env' dateParse toISO q l hup]

theorem runPairs_serpErr_mem (env : Env) (dateParse : String → Option Int)
    (toISO : Int → String) (maxResults : Nat) (q l : String) (e : SerpapiError)
    (pairs : List (String × String)) (hmem : (q, l) ∈ pairs)
    (he : (processPair env dateParse toISO maxResults q l).serpErr = some e) :
    e ∈ (runPairs env dateParse toISO maxResults pairs).serpapi_errors := by
  induction pairs with
  | nil => cases hmem
  | cons p rest ih =>
    rcases List.mem_cons.mp hmem with rfl | hrest
    · simp [runPairs, he]
    · rcases p with ⟨q', l'⟩
      simp only [runPairs, List.mem_append]
      exact Or.inr (ih hrest)

theorem runPairs_writes_sublist (env : Env) (dateParse : String → Option Int)
    (toISO : Int → String) (maxResults : Nat) (p : String × String)
    (pairs : List (String × String)) (hmem : p ∈ pairs) :
    (processPair env dateParse toISO maxResults p.1 p.2).writes.Sublist
      (runPairs env dateParse toISO maxResults pairs).writes := by
  induction pairs with
  | nil => cases hmem
  | cons p' rest ih =>
    rcases List.mem_cons.mp hmem with rfl | hrest
    · simp only [runPairs]
      exact List.sublist_append_left _ _
    · rcases p' with ⟨q', l'⟩
      simp only [runPairs]
      exact (ih hrest).trans (List.sublist_append_right _ _)

/-- C2: a failing pair is recorded in the serpapi-error list with its
query, location and reason, and every other pair's processing is
unaffected by the failure: its outcome equals the one under any
environment agreeing outside the failing pair, and its accepted rows
are still among the run's writes. -/
theorem pair_failure_isolated (env env' : Env)
    (dateParse : String → Option Int) (toISO : Int → String)
    (maxResults : Nat) (q1 l1 : String)
    (hup : env.upsert = env'.upsert)
    (hag : ∀ q l, (q, l) ≠ (q1, l1) → env.fetch q l = env'.fetch q l)
    (pairs : List (String × String)) :
    (∀ msg, env.fetch q1 l1 = .transportError msg → (q1, l1) ∈ pairs →
      (⟨q1, l1, msg⟩ : SerpapiError) ∈
        (runPairs env dateParse toISO maxResults pairs).serpapi_errors) ∧
    (∀ status, env.fetch q1 l1 = .httpNotOk status → (q1, l1) ∈ pairs →
      (⟨q1, l1, "SerpAPI HTTP " ++ toString status⟩ : SerpapiError) ∈
        (runPairs env dateParse toISO maxResults pairs).serpapi_errors) ∧
    (∀ p ∈ pairs, p ≠ (q1, l1) →
      processPair env dateParse toISO maxResults p.1 p.2 =
        processPair env' dateParse toISO maxResults p.1 p.2 ∧
      (processPair env dateParse toISO maxResults p.1 p.2).writes.Sublist
        (runPairs env dateParse toISO maxResults pairs).writes) := by
  refine ⟨?_, ?_, ?_⟩
  · intro msg hf hmem
    exact runPairs_serpErr_mem env dateParse toISO maxResults q1 l1 _ pairs hmem
      (by simp [processPair, hf])
  · intro status hf hmem
    exact runPairs_serpErr_mem env dateParse toISO maxResults q1 l1 _ pairs hmem
      (by simp [processPair, hf])
  · intro p hmem hne
    refine ⟨processPair_congr env env' dateParse toISO maxResults p.1 p.2 hup
      (hag p.1 p.2 (by simpa using hne)), ?_⟩
    exact runPairs_writes_sublist env dateParse toISO maxResults p pairs hmem

/-- Witness for C2: with pair ("A","L") failing in transport, its error
is recorded and the pair ("B","L") is processed exactly as under the
fully successful environment. -/
theorem pair_failure_isolated_witness :
    (⟨"A", "L", "boom"⟩ : SerpapiError) ∈
      (runPairs envFail dp0 iso0 25 (pairsOf ["A", "B"] ["L"])).serpapi_errors ∧
    processPair envFail dp0 iso0 25 "B" "L" = processPair envOkAll dp0 iso0 25 "B" "L" := by
  have h := pair_failure_isolated envFail envOkAll dp0 iso0 25 "A" "L" rfl
    (by
      intro q l hne
      simp only [envFail, envOkAll]
      rw [if_neg (by simpa using hne)])
    (pairsOf ["A", "B"] ["L"])
  refine ⟨h.1 "boom" (by simp [envFail]) (by simp [pairsOf]), ?_⟩
  exact (h.2.2 ("B", "L") (by simp [pairsOf]) (by simp)).1

end FetchOpenJobs

namespace FetchOpenJobs

theorem processJobs_counts (env : Env) (dateParse : String → Option Int)
    (toISO : Int → String) (q l : String) (js : List Job) :
    (processJobs env dateParse toISO q l js).attempted +
      (processJobs env dateParse toISO q l js).skipped_no_url = js.length ∧
    (processJobs env dateParse toISO q l js).upserted +
      (processJobs env dateParse toISO q l js).upsertErrors.length =
      (processJobs env dateParse toISO q l js).attempted := by
  induction js with
  | nil => simp [processJobs]
  | cons job rest ih =>
    rcases h : pickJobUrl job with _ | url
    · simp only [processJobs, h]
      simp only [List.length_cons]
      omega
    · rcases h2 : env.upsert (buildRow dateParse toISO l job url) with _ | msg <;>
        · simp only [processJobs, h, h2]
          simp only [List.length_cons, List.length_nil]
          simp only [List.length_cons] at ih ⊢
          omega

theorem runPairs_searched (env : Env) (dateParse : String → Option Int)
    (toISO : Int → String) (maxResults : Nat) (pairs : List (String × String)) :
    (runPairs env dateParse toISO maxResults pairs).searched_requests = pairs.length := by
  induction pairs with
  | nil => rfl
  | cons p rest ih => rcases p with ⟨q, l⟩; simp [runPairs, ih]

theorem runPairs_perQuery (env : Env) (dateParse : String → Option Int)
    (toISO : Int → String) (maxResults : Nat) (pairs : List (String × String)) :
    (runPairs env dateParse toISO maxResults pairs).per_query_counts =
      pairs.map (fun p => (processPair env dateParse toISO maxResults p.1 p.2).per) := by
  induction pairs with
  | nil => rfl
  | cons p rest ih => rcases p with ⟨q, l⟩; simp [runPairs, ih]

theorem runPairs_fetched (env : Env) (dateParse : String → Option Int)
    (toISO : Int → String) (maxResults : Nat) (pairs : List (String × String)) :
    (runPairs env dateParse toISO maxResults pairs).fetched_jobs_total =
      (pairs.map (fun p =>
        (processPair env dateParse toISO maxResults p.1 p.2).per.fetched)).sum := by
  induction pairs with
  | nil => rfl
  | cons p rest ih => rcases p with ⟨q, l⟩; simp [runPairs, ih]

theorem runPairs_upserted (env : Env) (dateParse : String → Option Int)
    (toISO : Int → String) (maxResults : Nat) (pairs : List (String × String)) :
    (runPairs env dateParse toISO maxResults pairs).upsert_success =
      (pairs.map (fun p =>
        (processPair env dateParse toISO maxResults p.1 p.2).per.upserted)).sum := by
  induction pairs with
  | nil => rfl
  | cons p rest ih => rcases p with ⟨q, l⟩; simp [runPairs, ih]

theorem runPairs_skipped (env : Env) (dateParse : String → Option Int)
    (toISO : Int → String) (maxResults : Nat) (pairs : List (String × String)) :
    (runPairs env dateParse toISO maxResults pairs).skipped_no_url =
      (pairs.map (fun p =>
        (processPair env dateParse toISO maxResults p.1 p.2).per.skipped_no_url)).sum := by
  induction pairs with
  | nil => rfl
  | cons p rest ih => rcases p with ⟨q, l⟩; simp [runPairs, ih]

theorem runPairs_upsertErrors (env : Env) (dateParse : String → Option Int)
    (toISO : Int → String) (maxResults : Nat) (pairs : List (String × String)) :
    (runPairs env dateParse toISO maxResults pairs).upsert_errors =
      (pairs.map (fun p =>
        (processPair env dateParse toISO maxResults p.1 p.2).upsertErrors)).flatten := by
  induction pairs with
  | nil => rfl
  | cons p rest ih => rcases p with ⟨q, l⟩; simp [runPairs, ih]

theorem pairsOf_length (titles locations : List String) :
    (pairsOf titles locations).length = titles.length * locations.length := by
  induction titles with
  | nil => simp [pairsOf]
  | cons t rest ih =>
    simp only [pairsOf, List.flatMap_cons, List.length_append, List.length_map,
      List.length_cons] at ih ⊢
    rw [ih, Nat.succ_mul, Nat.add_comm]

theorem processPair_ok_counts (env : Env) (dateParse : String → Option Int)
    (toISO : Int → String) (maxResults : Nat) (q l : String)
    (jobsOpt : Option (List Job)) (hf : env.fetch q l = .ok jobsOpt) :
    (processPair env dateParse toISO maxResults q l).per.attempted =
      min (processPair env dateParse toISO maxResults q l).per.fetched maxResults -
        (processPair env dateParse toISO maxResults q l).per.skipped_no_url ∧
    (processPair env dateParse toISO maxResults q l).per.upserted =
      (processPair env dateParse toISO maxResults q l).per.attempted -
        (processPair env dateParse toISO maxResults q l).upsertErrors.length := by
  have hc := processJobs_counts env dateParse toISO q l
    ((jobsOpt.getD []).take maxResults)
  simp only [List.length_take] at hc
  simp only [processPair, hf]
  constructor
  · omega
  · omega

end FetchOpenJobs

namespace FetchOpenJobs

/-- C9: the summary counters are mutually consistent — the request
count is the size of the title × location product, each total is the
sum of the per-pair counts, the upsert-error list is the concatenation
of the per-pair error lists, and on every pair fetched without
transport error the attempted count is min(fetched, cap) minus the
skipped count while the upserted count is attempted minus that pair's
recorded upsert errors. -/
theorem summary_counters_consistent (env : Env) (dateParse : String → Option Int)
    (toISO : Int → String) (maxResults : Nat) (titles locations : List String) :
    (runPairs env dateParse toISO maxResults (pairsOf titles locations)).searched_requests =
      titles.length * locations.length ∧
    (runPairs env dateParse toISO maxResults (pairsOf titles locations)).fetched_jobs_total =
      ((runPairs env dateParse toISO maxResults
        (pairsOf titles locations)).per_query_counts.map PerQuery.fetched).sum ∧
    (runPairs env dateParse toISO maxResults (pairsOf titles locations)).upsert_success =
      ((runPairs env dateParse toISO maxResults
        (pairsOf titles locations)).per_query_counts.map PerQuery.upserted).sum ∧
    (runPairs env dateParse toISO maxResults (pairsOf titles locations)).skipped_no_url =
      ((runPairs env dateParse toISO maxResults
        (pairsOf titles locations)).per_query_counts.map PerQuery.skipped_no_url).sum ∧
    (runPairs env dateParse toISO maxResults (pairsOf titles locations)).upsert_errors =
      ((pairsOf titles locations).map (fun p =>
        (processPair env dateParse toISO maxResults p.1 p.2).upsertErrors)).flatten ∧
    (∀ q l jobsOpt, env.fetch q l = .ok jobsOpt →
      (processPair env dateParse toISO maxResults q l).per.attempted =
        min (processPair env dateParse toISO maxResults q l).per.fetched maxResults -
          (processPair env dateParse toISO maxResults q l).per.skipped_no_url ∧
      (processPair env dateParse toISO maxResults q l).per.upserted =
        (processPair env dateParse toISO maxResults q l).per.attempted -
          (processPair env dateParse toISO maxResults q l).upsertErrors.length) := by
  refine ⟨?_, ?_, ?_, ?_, ?_, ?_⟩
  · rw [runPairs_searched, pairsOf_length]
  · rw [runPairs_fetched, runPairs_perQuery, List.map_map]
    rfl
  · rw [runPairs_upserted, runPairs_perQuery, List.map_map]
    rfl
  · rw [runPairs_skipped, runPairs_perQuery, List.map_map]
    rfl
  · exact runPairs_upsertErrors env dateParse toISO maxResults (pairsOf titles locations)
  · intro q l jobsOpt hf
    exact processPair_ok_counts env dateParse toISO maxResults q l jobsOpt hf

/-- Witness for C9: the two-pair run over ("A","L") failing and
("B","L") succeeding has two requests, and the successful pair's
counts obey the per-pair equation. -/
theorem summary_counters_consistent_witness :
    (runPairs envFail dp0 iso0 25 (pairsOf ["A", "B"] ["L"])).searched_requests = 2 ∧
    (processPair envFail dp0 iso0 25 "B" "L").per.attempted =
      min (processPair envFail dp0 iso0 25 "B" "L").per.fetched 25 -
        (processPair envFail dp0 iso0 25 "B" "L").per.skipped_no_url := by
  have h := summary_counters_consistent envFail dp0 iso0 25 ["A", "B"] ["L"]
  exact ⟨h.1, (h.2.2.2.2.2 "B" "L" (some [jobU]) (by decide)).1⟩

/-- C10: for a result with a usable URL, a missing or blank company
name or title defaults to "Unknown", a missing result location
defaults to the pair's location string, and such a result is neither
skipped nor the source of an error record — the skip counter is
untouched and, when the store accepts the row, no error is added. -/
theorem row_field_defaults (env : Env) (dateParse : String → Option Int)
    (toISO : Int → String) (q l : String) (job : Job) (js : List Job) (url : String)
    (hurl : pickJobUrl job = some url) :
    ((job.company_name.or job.company = none ∨
        ∃ s, job.company_name.or job.company = some s ∧ jsTrim s = "") →
      (buildRow dateParse toISO l job url).company = "Unknown") ∧
    ((job.title = none ∨ ∃ s, job.title = some s ∧ jsTrim s = "") →
      (buildRow dateParse toISO l job url).role = "Unknown") ∧
    (job.location = none → jsTrim l = l →
      (buildRow dateParse toISO l job url).location = l) ∧
    (processJobs env dateParse toISO q l (job :: js)).skipped_no_url =
      (processJobs env dateParse toISO q l js).skipped_no_url ∧
    (env.upsert (buildRow dateParse toISO l job url) = none →
      (processJobs env dateParse toISO q l (job :: js)).upsertErrors =
        (processJobs env dateParse toISO q l js).upsertErrors) := by
  refine ⟨?_, ?_, ?_, ?_, ?_⟩
  · rintro (h | ⟨s, hs, htrim⟩)
    · simp [buildRow, asString, h]
    · simp [buildRow, asString, hs, htrim]
  · rintro (h | ⟨s, hs, htrim⟩)
    · simp [buildRow, asString, h]
    · simp [buildRow, asString, hs, htrim]
  · intro hl htrim
    have hsome : job.location.or (some l) = some l := by rw [hl]; rfl
    simp only [buildRow, asString, hsome, htrim]
    split <;> rfl
  · cases hup : env.upsert (buildRow dateParse toISO l job url) <;>
      simp [processJobs, hurl, hup]
  · intro hup
    simp [processJobs, hurl, hup]

/-- Witness for C10: a result carrying only a URL is stored with
company and role "Unknown" and the pair's location, is not skipped,
and records no error when the store accepts it. -/
theorem row_field_defaults_witness :
    (buildRow dp0 iso0 "Seattle" jobU "https://jobs.example/1").company = "Unknown" ∧
    (buildRow dp0 iso0 "Seattle" jobU "https://jobs.example/1").role = "Unknown" ∧
    (buildRow dp0 iso0 "Seattle" jobU "https://jobs.example/1").location = "Seattle" ∧
    (processJobs envAccept dp0 iso0 "q" "Seattle" [jobU]).skipped_no_url =
      (processJobs envAccept dp0 iso0 "q" "Seattle" []).skipped_no_url ∧
    (processJobs envAccept dp0 iso0 "q" "Seattle" [jobU]).upsertErrors =
      (processJobs envAccept dp0 iso0 "q" "Seattle" []).upsertErrors := by
  have h := row_field_defaults envAccept dp0 iso0 "q" "Seattle" jobU []
    "https://jobs.example/1" (by decide)
  exact ⟨h.1 (Or.inl rfl), h.2.1 (Or.inl rfl), h.2.2.1 rfl (by decide),
    h.2.2.2.1, h.2.2.2.2 (by decide)⟩

end FetchOpenJobs
